import Mathlib

/-
  Verification of the ChatGPTArchiver extraction engine and batch/transfer
  orchestration, as a shallow embedding of the JavaScript source.

  * `src/utils/extractor.js`  → the `ChatGPTExtractor` model below: the DOM is
    modelled by the results of exactly the queries the extractor performs
    (`DomRoot`, `MsgElement`, ...), JS strings by Lean `String`, and JS numbers
    by exact rationals `ℚ` (all scores involved are short decimal fractions).
  * `src/scripts/background.js` → the batch orchestrator, transfer-strategy
    decision, chunk splitting, worker-lifecycle singleton and readiness
    handshake, with the asynchronous environment (fetch results, message
    responses, ping outcomes) passed in explicitly as oracles.
  * content-script main module   → the live-extraction entry points, which call
    `extractConversation()` with no argument.
-/

set_option autoImplicit false

namespace ChatGPTArchiver

/-- JS `String.prototype.includes(pat)`: substring test, modelled on the
character lists underlying the two strings. -/
def strContains (s pat : String) : Bool :=
  decide (List.IsInfix pat.data s.data)

/-- JS `String.prototype.trim()`: strip leading and trailing whitespace. -/
def jsTrim (s : String) : String :=
  String.mk (((s.data.dropWhile Char.isWhitespace).reverse.dropWhile Char.isWhitespace).reverse)

/-- JS `String.prototype.toLowerCase()`. -/
def jsToLower (s : String) : String :=
  String.mk (s.data.map Char.toLower)

/-- Result of `element.querySelector('time')`: the `datetime` attribute (when
present) and the element's text content. -/
structure TimeEl where
  datetime : Option String
  textContent : String
deriving DecidableEq, Repr

/-- Result of `element.querySelector('[class*="markdown"], .whitespace-pre-wrap,
[data-message-author-role]')`.  `codeBlockCount` is the length of
`querySelectorAll('pre code, code')` on it; `innerHTML` is the inner markup as
read after the `data-code-block` attributes have been set. -/
structure TextContainer where
  textContent : String
  innerHTML : String
  codeBlockCount : Nat
deriving DecidableEq, Repr

/-- A message-turn (or fallback group) element, described by the results of the
queries `extractMessage` / `extractMessagesAlternative` perform on it. -/
structure MsgElement where
  className : String
  /-- `element.dataset.messageAuthorRole` -/
  dataMessageAuthorRole : Option String
  /-- `element.querySelector('img[alt]')?.alt` -/
  avatarAlt : Option String
  textContainer : Option TextContainer
  timeEl : Option TimeEl
  /-- `element.querySelector('code') !== null` (used by the fallback path) -/
  hasCodeEl : Bool
  textContent : String
  innerHTML : String
deriving DecidableEq, Repr

/-- An element carrying only text content (title candidates). -/
structure SimpleEl where
  textContent : String
deriving DecidableEq, Repr

/-- The `body` element, as consulted by `assessCompleteness`. -/
structure BodyEl where
  innerHTML : String
  textContent : String
deriving DecidableEq, Repr

/-- The root node handed to `ChatGPTExtractor`, modelled by the results of the
fixed set of selector queries the extractor runs against it. -/
structure DomRoot where
  /-- `querySelector('h1')` -/
  qH1 : Option SimpleEl
  /-- `querySelector('[class*="text-2xl"]')` -/
  qText2xl : Option SimpleEl
  /-- `querySelector('title')` -/
  qTitleEl : Option SimpleEl
  /-- `querySelectorAll('[data-testid^="conversation-turn-"]')` in document order -/
  primaryTurns : List MsgElement
  /-- `querySelectorAll('.group, [class*="group/conversation-turn"]')` in document order -/
  groups : List MsgElement
  /-- length of `querySelectorAll('[class*="placeholder"], [class*="lazy"], [data-lazy]')` -/
  lazyPlaceholderCount : Nat
  /-- length of `querySelectorAll('[class*="skeleton"], [class*="shimmer"], [aria-busy="true"]')` -/
  skeletonCount : Nat
  /-- `getBody()` result; `none` models a document with a null `body` -/
  body : Option BodyEl
deriving DecidableEq, Repr

/-- `message.content` as built by `getMessageContent`. -/
structure MessageContent where
  text : String
  html : String
  hasCode : Bool
deriving DecidableEq, Repr

/-- One element of the extracted `messages` array. -/
structure Message where
  index : Nat
  role : String
  content : MessageContent
  timestamp : Option String
  raw : String
deriving DecidableEq, Repr

/-- `conversation.metadata`.  The source only ever assigns `extractionMethod`,
`confidence` and (in static mode) `warnings`; fields the source never assigns
are modelled as `Option` fields left at `none`. -/
structure ExtractionMetadata where
  extractionMethod : String
  confidence : ℚ
  warnings : Option (List String) := none
  isReliable : Option Bool := none
deriving DecidableEq, Repr

/-- The conversation record built by `extractConversation`. -/
structure Conversation where
  title : String
  timestamp : String
  url : String
  conversationId : String
  messages : List Message
  metadata : Option ExtractionMetadata := none
deriving DecidableEq, Repr

/-- `getMessageRole(element)`. -/
def getMessageRole (element : MsgElement) : String :=
  if strContains element.className "user" || element.dataMessageAuthorRole == some "user" then
    "user"
  else if strContains element.className "assistant" || element.dataMessageAuthorRole == some "assistant" then
    "assistant"
  else
    match element.avatarAlt with
    | some altRaw =>
      let alt := jsToLower altRaw
      if strContains alt "user" then "user"
      else if strContains alt "chatgpt" || strContains alt "assistant" then "assistant"
      else "unknown"
    | none => "unknown"

/-- `getMessageContent(element)`. -/
def getMessageContent (element : MsgElement) : MessageContent :=
  match element.textContainer with
  | some tc =>
    { text := tc.textContent, html := tc.innerHTML, hasCode := decide (0 < tc.codeBlockCount) }
  | none =>
    { text := element.textContent, html := element.innerHTML, hasCode := false }

/-- `getMessageTimestamp(element)`: `datetime` attribute when truthy, else the
`time` element's text; `null` when there is no `time` element. -/
def getMessageTimestamp (element : MsgElement) : Option String :=
  match element.timeEl with
  | some t =>
    match t.datetime with
    | some d => if d = "" then some t.textContent else some d
    | none => some t.textContent
  | none => none

/-- `extractMessage(element, index)`; always returns a message object. -/
def extractMessage (element : MsgElement) (index : Nat) : Message :=
  { index := index
    role := getMessageRole element
    content := getMessageContent element
    timestamp := getMessageTimestamp element
    raw := element.innerHTML }

/-- The primary `messageElements.forEach((element, index) => ...)` loop.
`extractMessage` always returns an object (truthy), so the `if (message)`
guard always pushes. -/
def extractPrimaryFrom (index : Nat) : List MsgElement → List Message
  | [] => []
  | element :: rest => extractMessage element index :: extractPrimaryFrom (index + 1) rest

/-- The `groups.forEach((group, index) => ...)` loop of
`extractMessagesAlternative`: a message is pushed only for groups with
non-empty trimmed text, but keeps that group's forEach `index`. -/
def extractMessagesAlternativeFrom (index : Nat) : List MsgElement → List Message
  | [] => []
  | group :: rest =>
    if jsTrim group.textContent = "" then
      extractMessagesAlternativeFrom (index + 1) rest
    else
      { index := index
        role := "unknown"
        content :=
          { text := jsTrim group.textContent
            html := group.innerHTML
            hasCode := group.hasCodeEl }
        timestamp := none
        raw := group.innerHTML } :: extractMessagesAlternativeFrom (index + 1) rest

/-- `extractMessagesAlternative()`. -/
def extractMessagesAlternative (root : DomRoot) : List Message :=
  extractMessagesAlternativeFrom 0 root.groups

/-- The title-selector cascade: first candidate with non-empty trimmed text
wins; default placeholder otherwise. -/
def getConversationTitleFrom : List (Option SimpleEl) → String
  | [] => "ChatGPT Conversation"
  | some el :: rest =>
    if jsTrim el.textContent = "" then getConversationTitleFrom rest else jsTrim el.textContent
  | none :: rest => getConversationTitleFrom rest

/-- `getConversationTitle()` over the selectors `h1`, `[class*="text-2xl"]`, `title`. -/
def getConversationTitle (root : DomRoot) : String :=
  getConversationTitleFrom [root.qH1, root.qText2xl, root.qTitleEl]

/-- Character class `[a-zA-Z0-9-]` of the conversation-id pattern. -/
def isConvIdChar (c : Char) : Bool :=
  ('a' ≤ c && c ≤ 'z') || ('A' ≤ c && c ≤ 'Z') || ('0' ≤ c && c ≤ '9') || c == '-'

/-- First match of the regular expression `\/c\/([a-zA-Z0-9-]+)`: scan for the
earliest position where `/c/` is followed by at least one id character, and
capture the maximal id-character run there. -/
def findConvId : List Char → Option String
  | [] => none
  | c :: rest =>
    match c, rest with
    | '/', 'c' :: '/' :: rest2 =>
      let run := rest2.takeWhile isConvIdChar
      if run.isEmpty then findConvId rest else some (String.mk run)
    | _, _ => findConvId rest

/-- `getConversationId(url)`. -/
def getConversationId (url : String) : String :=
  match findConvId url.data with
  | some id => id
  | none => "unknown"

/-- JS `Math.round`: round half toward positive infinity. -/
def jsRound (q : ℚ) : ℤ :=
  Int.floor (q + 1 / 2)

/-- `timestampRatio` of `assessCompleteness`. -/
def timestampRatio (conversation : Conversation) : ℚ :=
  if 0 < conversation.messages.length then
    ((conversation.messages.filter (fun m => m.timestamp.isSome)).length : ℚ) /
      (conversation.messages.length : ℚ)
  else 0

/-- `body && body.innerHTML.includes('Load more')`. -/
def bodyHasLoadMore (root : DomRoot) : Bool :=
  match root.body with
  | some b => strContains b.innerHTML "Load more"
  | none => false

/-- `body && body.textContent.trim().length > 100`. -/
def bodyLongText (root : DomRoot) : Bool :=
  match root.body with
  | some b => decide (100 < (jsTrim b.textContent).length)
  | none => false

/-- Check 1 condition: some lazy-load placeholder matched. -/
abbrev penaltyLazy (root : DomRoot) : Prop :=
  0 < root.lazyPlaceholderCount

/-- Check 2 condition: messages exist but fewer than half carry timestamps. -/
abbrev penaltyTimestamps (conversation : Conversation) : Prop :=
  0 < conversation.messages.length ∧ timestampRatio conversation < 0.5

/-- Check 3 condition: fewer than 5 messages and a `Load more` marker in the body. -/
abbrev penaltyTruncated (root : DomRoot) (conversation : Conversation) : Prop :=
  conversation.messages.length < 5 ∧ bodyHasLoadMore root = true

/-- Check 4 condition: some skeleton / shimmer / busy marker matched. -/
abbrev penaltySkeleton (root : DomRoot) : Prop :=
  0 < root.skeletonCount

/-- Check 5 condition: no messages extracted though the body text is non-trivial. -/
abbrev penaltyNoMessages (root : DomRoot) (conversation : Conversation) : Prop :=
  conversation.messages.length = 0 ∧ bodyLongText root = true

/-- `assessCompleteness(conversation)`: start at score 1.0, apply the five
checks in source order (each subtracting its penalty and pushing its warning),
then `score = Math.max(0, score)` and `isReliable = score >= 0.7`. -/
structure Assessment where
  score : ℚ
  warnings : List String
  isReliable : Bool
deriving DecidableEq, Repr

def assessCompleteness (root : DomRoot) (conversation : Conversation) : Assessment :=
  let score0 : ℚ := 1
  let warnings0 : List String := []
  let score1 := if penaltyLazy root then score0 - 0.3 else score0
  let warnings1 :=
    if penaltyLazy root then
      warnings0 ++ [toString root.lazyPlaceholderCount ++
        " lazy-load placeholders detected (content might be truncated)."]
    else warnings0
  let score2 := if penaltyTimestamps conversation then score1 - 0.2 else score1
  let warnings2 :=
    if penaltyTimestamps conversation then
      warnings1 ++ ["Only " ++ toString (jsRound (timestampRatio conversation * 100)) ++
        "% of messages have timestamps (might be incomplete React hydration)."]
    else warnings1
  let score3 := if penaltyTruncated root conversation then score2 - 0.4 else score2
  let warnings3 :=
    if penaltyTruncated root conversation then
      warnings2 ++ ["Conversation appears truncated (very few messages extracted)."]
    else warnings2
  let score4 := if penaltySkeleton root then score3 - 0.5 else score3
  let warnings4 :=
    if penaltySkeleton root then
      warnings3 ++ ["HTML contains loading skeletons (incomplete render)."]
    else warnings3
  let score5 := if penaltyNoMessages root conversation then score4 - 0.6 else score4
  let warnings5 :=
    if penaltyNoMessages root conversation then
      warnings4 ++ ["No messages extracted despite non-empty page content (likely a parsing issue or severe truncation)."]
    else warnings4
  let score := max 0 score5
  { score := score
    warnings := warnings5
    isReliable := decide ((0.7 : ℚ) ≤ score) }

/-- The `url` argument of `extractConversation`, as a JS value: `undefined`
(missing argument), `null`, a non-string value, or a string. -/
inductive UrlArg where
  | undefinedArg : UrlArg
  | nullArg : UrlArg
  | nonStringArg : UrlArg
  | str : String → UrlArg
deriving DecidableEq, Repr

/-- The `messages` array as finally held by the record: the primary loop's
result, replaced by the alternative extraction when it is empty. -/
def extractedMessages (root : DomRoot) : List Message :=
  let primaryMessages := extractPrimaryFrom 0 root.primaryTurns
  if primaryMessages.length = 0 then extractMessagesAlternative root else primaryMessages

/-- The conversation record as it stands right before the metadata branch of
`extractConversation`: title, extraction wall-clock time, the URL as passed,
the parsed conversation id, and the extracted messages. -/
def baseConversation (root : DomRoot) (now s : String) : Conversation :=
  { title := getConversationTitle root
    timestamp := now
    url := s
    conversationId := getConversationId s
    messages := extractedMessages root }

/-- `extractConversation(url)`.  `now` stands for `new Date().toISOString()`.
Throws (via `Except.error`) exactly when `!url || typeof url !== 'string'`. -/
def extractConversation (root : DomRoot) (isStatic : Bool) (now : String) (url : UrlArg) :
    Except String Conversation :=
  match url with
  | UrlArg.str s =>
    if s = "" then Except.error "URL parameter is required for extraction"
    else
      let conversation : Conversation := baseConversation root now s
      if isStatic then
        let assessment := assessCompleteness root conversation
        Except.ok { conversation with
          metadata := some
            { extractionMethod := "static-html"
              confidence := assessment.score
              warnings := some assessment.warnings } }
      else
        Except.ok { conversation with
          metadata := some
            { extractionMethod := "live-dom"
              confidence := 1 } }
  | _ => Except.error "URL parameter is required for extraction"

/-- Content script: both the export button's click handler and the
`EXTRACT_CONVERSATION` message handler call
`this.extractor.extractConversation()` with no argument (live DOM,
`isStatic = false`). -/
def contentExtractConversation (root : DomRoot) (now : String) : Except String Conversation :=
  extractConversation root false now UrlArg.undefinedArg

/-- The response the `EXTRACT_CONVERSATION` message handler delivers: when the
extractor throws, the listener crashes before `sendResponse`, so no response is
produced at all (`none`). -/
def contentScriptExtractResponse (root : DomRoot) (now : String) :
    Option (Except String Conversation) :=
  match contentExtractConversation root now with
  | Except.ok data => some (Except.ok data)
  | Except.error _ => none

/-- `waitForPageLoad(tabId, timeout = 15000)`: resolves when a `PAGE_READY`
message from the tab's content script arrives within the timeout window
(`pageReady`), and rejects with `'Page ready timeout for tab ' + tabId`
otherwise. -/
def waitForPageLoad (pageReady : Bool) (tabId : Nat) : Except String Unit :=
  if pageReady then Except.ok ()
  else Except.error ("Page ready timeout for tab " ++ toString tabId)

/-- Whether a `PAGE_READY` message from the hidden tab can arrive while the
background worker is inside `waitForPageLoad`.  It cannot: the content
script's only `sendPageReadySignal()` call sits inside its
`EXTRACT_CONVERSATION` handler, after `extractConversation()` — and the
background worker sends `EXTRACT_CONVERSATION` only after `waitForPageLoad`
has already resolved (moreover that handler's `extractConversation()` call
throws before the signal, so `PAGE_READY` is never emitted at all). -/
def pageReadyDuringWait : Bool := false

/-- `fallbackTabExtraction(conversationId)`: opens the hidden tab, awaits
`waitForPageLoad(tab.id)`, and only then sends `EXTRACT_CONVERSATION` to the
tab, throwing `'Fallback extraction failed'` when no successful response
arrives; the `finally` closes the tab and any error propagates. -/
def fallbackTabExtraction (root : DomRoot) (now : String) (tabId : Nat) :
    Except String Conversation :=
  match waitForPageLoad pageReadyDuringWait tabId with
  | Except.error e => Except.error e
  | Except.ok _ =>
    match contentScriptExtractResponse root now with
    | some (Except.ok data) => Except.ok data
    | some (Except.error e) => Except.error e
    | none => Except.error "Fallback extraction failed"

/-! ## Background service worker (`src/scripts/background.js`)

A JS string crossing the transfer channel is modelled as its list of UTF-16
code units (`List Nat`), so that `html.length` and `html.slice` are exact,
and `new Blob([html]).size` is the UTF-8 byte count `utf8Len`. -/

/-- `const CHUNK_SIZE = 1024 * 1024; // 1MB` -/
def CHUNK_SIZE : Nat := 1024 * 1024

/-- `new Blob([html]).size`: UTF-8 byte length of a UTF-16 code-unit sequence
(surrogate pairs encode to 4 bytes; unpaired surrogates are replaced by
U+FFFD, 3 bytes, per USVString conversion). -/
def utf8Len : List Nat → Nat
  | [] => 0
  | u :: rest =>
    if u < 0x80 then 1 + utf8Len rest
    else if u < 0x800 then 2 + utf8Len rest
    else if u < 0xD800 then 3 + utf8Len rest
    else if u < 0xDC00 then
      match rest with
      | v :: rest2 =>
        if 0xDC00 ≤ v && v < 0xE000 then 4 + utf8Len rest2 else 3 + utf8Len (v :: rest2)
      | [] => 3
    else 3 + utf8Len rest

/-- The transfer-strategy decision of `handleBatchExport`:
`htmlSize > 5 * CHUNK_SIZE` selects the chunked protocol. -/
def usesChunkedTransfer (html : List Nat) : Bool :=
  decide (5 * CHUNK_SIZE < utf8Len html)

/-- The slicing loop of `sendChunkedHtmlToOffscreen`:
`for (let i = 0; i < html.length; i += CHUNK_SIZE) chunks.push(html.slice(i, i + CHUNK_SIZE))`. -/
def buildChunks {α : Type} : List α → List (List α)
  | [] => []
  | a :: rest => (a :: rest).take CHUNK_SIZE :: buildChunks ((a :: rest).drop CHUNK_SIZE)
termination_by l => l.length
decreasing_by
  simp [CHUNK_SIZE]
  omega

/-- Equality of settled promise values is decidable. -/
instance {ε α : Type} [DecidableEq ε] [DecidableEq α] : DecidableEq (Except ε α) := fun x y =>
  match x, y with
  | Except.ok a, Except.ok b =>
    if h : a = b then isTrue (by rw [h]) else isFalse (fun hh => h (Except.ok.inj hh))
  | Except.error a, Except.error b =>
    if h : a = b then isTrue (by rw [h]) else isFalse (fun hh => h (Except.error.inj hh))
  | Except.ok _, Except.error _ => isFalse (fun hh => Except.noConfusion hh)
  | Except.error _, Except.ok _ => isFalse (fun hh => Except.noConfusion hh)

/-- The `fetch` outcome observed by a batch item: `response.ok`,
`response.status`, and the body text as UTF-16 code units. -/
structure FetchResp where
  ok : Bool
  status : Nat
  html : List Nat
deriving DecidableEq, Repr

/-- The asynchronous environment one batch item runs against: results of the
fetch, of the offscreen parse (one oracle per transfer strategy), of the
tab-based fallback extraction, and of export-and-download. -/
structure ItemWorld where
  fetchResult : Except String FetchResp
  parseDirectResult : Except String Conversation
  parseChunkedResult : Except String Conversation
  fallbackResult : Except String Conversation
  exportResult : Except String Unit
deriving DecidableEq, Repr

/-- `conversationData.metadata && conversationData.metadata.confidence < 0.7`. -/
def lowConfidence (conversationData : Conversation) : Bool :=
  match conversationData.metadata with
  | some m => decide (m.confidence < 0.7)
  | none => false

/-- The body of `handleBatchExport`'s per-item `try` block: fetch, HTTP-status
check, direct-or-chunked parse, low-confidence fallback, export.  Any error
anywhere is the item's failure. -/
def processItem (w : ItemWorld) : Except String Unit :=
  match w.fetchResult with
  | Except.error e => Except.error e
  | Except.ok resp =>
    if !resp.ok then Except.error ("HTTP error! status: " ++ toString resp.status)
    else
      match (if usesChunkedTransfer resp.html then w.parseChunkedResult else w.parseDirectResult) with
      | Except.error e => Except.error e
      | Except.ok conversationData =>
        match (if lowConfidence conversationData then w.fallbackResult else Except.ok conversationData) with
        | Except.error e => Except.error e
        | Except.ok _ => w.exportResult

/-- The batch tally: `successful`/`failed` counters plus the list of
identifiers whose processing was attempted, in order. -/
structure BatchResult where
  successful : Nat
  failed : Nat
  attempted : List Nat
deriving DecidableEq, Repr

/-- The `for` loop of `handleBatchExport`: each item is attempted; a caught
error increments `failed` and the loop continues with the next identifier. -/
def handleBatchExportGo (env : Nat → ItemWorld) : List Nat → BatchResult → BatchResult
  | [], acc => acc
  | id :: rest, acc =>
    let acc2 :=
      match processItem (env id) with
      | Except.ok _ =>
        { acc with successful := acc.successful + 1, attempted := acc.attempted ++ [id] }
      | Except.error _ =>
        { acc with failed := acc.failed + 1, attempted := acc.attempted ++ [id] }
    handleBatchExportGo env rest acc2

/-- `handleBatchExport(request)` over `request.conversationIds`. -/
def handleBatchExport (env : Nat → ItemWorld) (conversationIds : List Nat) : BatchResult :=
  handleBatchExportGo env conversationIds { successful := 0, failed := 0, attempted := [] }

/-- `waitForOffscreen`'s retry loop from attempt `i` with `fuel` attempts left:
`pings i = true` models a `PING` round-trip that returned `{success: true}`
(exceptions and falsy responses are both "keep retrying"). -/
def waitForOffscreenFrom (pings : Nat → Bool) (i : Nat) : Nat → Except String Bool
  | 0 => Except.error "Offscreen document failed to load"
  | fuel + 1 =>
    if pings i then Except.ok true else waitForOffscreenFrom pings (i + 1) fuel

/-- `waitForOffscreen(attempts = 10)`. -/
def waitForOffscreen (pings : Nat → Bool) : Except String Bool :=
  waitForOffscreenFrom pings 0 10

/-- The asynchronous environment `setupOffscreenDocument` runs against. -/
structure OffscreenEnv where
  /-- outcome of `chrome.runtime.getContexts({contextTypes: ['OFFSCREEN_DOCUMENT']})` -/
  getContextsResult : Except String (List Unit)
  /-- outcome of `chrome.offscreen.createDocument(...)` -/
  createResult : Except String Unit
  pings : Nat → Bool

/-- `setupOffscreenDocument()` as explicit state passing over
`this.offscreenPromise`, modelled as the settled value of the cached promise
(`none` = no in-flight handle).  Returns the new state and the result the
caller awaits.  The `try`/`catch` that nulls the handle wraps only
`createDocument` and `waitForOffscreen`; a `getContexts` rejection leaves the
rejected promise cached. -/
def setupOffscreenDocument (env : OffscreenEnv)
    (offscreenPromise : Option (Except String Unit)) :
    Option (Except String Unit) × Except String Unit :=
  match offscreenPromise with
  | some p => (some p, p)
  | none =>
    match env.getContextsResult with
    | Except.error e => (some (Except.error e), Except.error e)
    | Except.ok existingContexts =>
      if 0 < existingContexts.length then (some (Except.ok ()), Except.ok ())
      else
        match env.createResult with
        | Except.error e => (none, Except.error e)
        | Except.ok _ =>
          match waitForOffscreen env.pings with
          | Except.error e => (none, Except.error e)
          | Except.ok _ => (some (Except.ok ()), Except.ok ())

/-! ## Concrete documents and environments used in counterexamples and witnesses -/

/-- A document where every selector query comes back empty. -/
def emptyRoot : DomRoot :=
  { qH1 := none, qText2xl := none, qTitleEl := none, primaryTurns := [], groups := [],
    lazyPlaceholderCount := 0, skeletonCount := 0, body := none }

/-- A group element whose text content is whitespace only. -/
def blankGroup : MsgElement :=
  { className := "group", dataMessageAuthorRole := none, avatarAlt := none,
    textContainer := none, timeEl := none, hasCodeEl := false,
    textContent := "   ", innerHTML := "<div> </div>" }

/-- A group element with real text content. -/
def textGroup : MsgElement :=
  { blankGroup with textContent := "hello there", innerHTML := "<div>hello there</div>" }

/-- A document where the primary selector matches nothing and the secondary
selector matches a whitespace-only group followed by a text-bearing group. -/
def gapRoot : DomRoot :=
  { emptyRoot with groups := [blankGroup, textGroup] }

/-- A document where the primary selector matches nothing and the secondary
selector matches a single text-bearing group. -/
def altRoot : DomRoot :=
  { emptyRoot with groups := [textGroup] }

/-- A parsed conversation as returned by an offscreen parse oracle. -/
def parsedConv : Conversation :=
  { title := "t", timestamp := "n", url := "u", conversationId := "c", messages := [] }

/-- A batch-item environment in which every step succeeds. -/
def worldGood : ItemWorld :=
  { fetchResult := Except.ok { ok := true, status := 200, html := [104, 105] }
    parseDirectResult := Except.ok parsedConv
    parseChunkedResult := Except.error "unused"
    fallbackResult := Except.error "unused"
    exportResult := Except.ok () }

/-- A batch-item environment whose fetch throws. -/
def worldBad : ItemWorld :=
  { worldGood with fetchResult := Except.error "Network failure" }

/-- The batch environment in which every item succeeds except item 3, whose
fetch throws. -/
def batchEnv : Nat → ItemWorld :=
  fun i => if i = 3 then worldBad else worldGood

/-- A worker-lifecycle environment whose `getContexts` query rejects. -/
def envCtxFail : OffscreenEnv :=
  { getContextsResult := Except.error "ctx fail", createResult := Except.ok (),
    pings := fun _ => true }

/-- A worker-lifecycle environment whose `createDocument` call rejects. -/
def envCreateFail : OffscreenEnv :=
  { getContextsResult := Except.ok [], createResult := Except.error "boom",
    pings := fun _ => true }

/-- A worker-lifecycle environment in which every readiness ping fails. -/
def envPingFail : OffscreenEnv :=
  { getContextsResult := Except.ok [], createResult := Except.ok (),
    pings := fun _ => false }

/-! ## Helper lemmas -/

lemma length_extractPrimaryFrom (i : Nat) (els : List MsgElement) :
    (extractPrimaryFrom i els).length = els.length := by
  induction els generalizing i with
  | nil => rfl
  | cons e rest ih => simp [extractPrimaryFrom, ih]

lemma map_index_extractPrimaryFrom (i : Nat) (els : List MsgElement) :
    (extractPrimaryFrom i els).map Message.index = List.range' i els.length := by
  induction els generalizing i with
  | nil => rfl
  | cons e rest ih =>
    simp [extractPrimaryFrom, extractMessage, List.range'_succ, ih]

lemma role_timestamp_extractMessagesAlternativeFrom (i : Nat) (gs : List MsgElement) :
    ∀ m ∈ extractMessagesAlternativeFrom i gs, m.role = "unknown" ∧ m.timestamp = none := by
  induction gs generalizing i with
  | nil => intro m hm; simp [extractMessagesAlternativeFrom] at hm
  | cons g rest ih =>
    intro m hm
    by_cases hg : jsTrim g.textContent = ""
    · rw [extractMessagesAlternativeFrom, if_pos hg] at hm
      exact ih (i + 1) m hm
    · rw [extractMessagesAlternativeFrom, if_neg hg] at hm
      rcases List.mem_cons.mp hm with rfl | hm2
      · exact ⟨rfl, rfl⟩
      · exact ih (i + 1) m hm2

lemma map_index_extractMessagesAlternativeFrom (i : Nat) (gs : List MsgElement)
    (h : ∀ g ∈ gs, jsTrim g.textContent ≠ "") :
    (extractMessagesAlternativeFrom i gs).map Message.index = List.range' i gs.length := by
  induction gs generalizing i with
  | nil => rfl
  | cons g rest ih =>
    have hg : ¬ jsTrim g.textContent = "" := h g (List.mem_cons_self g rest)
    rw [extractMessagesAlternativeFrom, if_neg hg]
    simp only [List.map, List.length_cons, List.range'_succ]
    rw [ih (i + 1) (fun g' hg' => h g' (List.mem_cons_of_mem g hg'))]

lemma extractedMessages_primary (root : DomRoot) (h : root.primaryTurns ≠ []) :
    extractedMessages root = extractPrimaryFrom 0 root.primaryTurns := by
  simp only [extractedMessages, length_extractPrimaryFrom]
  rw [if_neg]
  simpa using h

lemma extractedMessages_fallback (root : DomRoot) (h : root.primaryTurns = []) :
    extractedMessages root = extractMessagesAlternative root := by
  simp only [extractedMessages, h]
  rfl

lemma extractConversation_live (root : DomRoot) (now s : String) (hs : s ≠ "") :
    extractConversation root false now (UrlArg.str s) =
      Except.ok { baseConversation root now s with
        metadata := some { extractionMethod := "live-dom", confidence := 1 } } := by
  simp only [extractConversation, if_neg hs]
  rfl

lemma extractConversation_static (root : DomRoot) (now s : String) (hs : s ≠ "") :
    extractConversation root true now (UrlArg.str s) =
      Except.ok { baseConversation root now s with
        metadata := some
          { extractionMethod := "static-html"
            confidence := (assessCompleteness root (baseConversation root now s)).score
            warnings := some (assessCompleteness root (baseConversation root now s)).warnings } } := by
  simp only [extractConversation, if_neg hs]
  rfl

/-! ## Claim theorems -/

/-- C9: `extractConversation` fails with the explicit error
`'URL parameter is required for extraction'` whenever its `url` argument is
missing (`undefined`), `null`, empty, or not a string, returning no record;
and for every valid URL the returned record's `url` field is exactly the
passed string — the engine never substitutes an ambient current-page URL. -/
theorem C9_url_validation (root : DomRoot) (isStatic : Bool) (now : String) :
    (∀ url : UrlArg, (¬ ∃ s, url = UrlArg.str s ∧ s ≠ "") →
      extractConversation root isStatic now url =
        Except.error "URL parameter is required for extraction") ∧
    (∀ s : String, s ≠ "" →
      ∃ c, extractConversation root isStatic now (UrlArg.str s) = Except.ok c ∧ c.url = s) := by
  constructor
  · intro url h
    match url with
    | UrlArg.undefinedArg => rfl
    | UrlArg.nullArg => rfl
    | UrlArg.nonStringArg => rfl
    | UrlArg.str s =>
      have hs : s = "" := by
        by_contra hne
        exact h ⟨s, rfl, hne⟩
      subst hs
      rfl
  · intro s hs
    cases isStatic with
    | false => exact ⟨_, extractConversation_live root now s hs, rfl⟩
    | true => exact ⟨_, extractConversation_static root now s hs, rfl⟩

/-- Witness for C9 at a concrete document: the `undefined` argument produces
the explicit error, and a concrete non-empty URL produces a record carrying
that URL. -/
theorem C9_url_validation_witness :
    extractConversation emptyRoot false "t" UrlArg.undefinedArg =
      Except.error "URL parameter is required for extraction" ∧
    (∃ c, extractConversation emptyRoot false "t"
        (UrlArg.str "https://chat.openai.com/c/abc") = Except.ok c ∧
      c.url = "https://chat.openai.com/c/abc") :=
  ⟨(C9_url_validation emptyRoot false "t").1 UrlArg.undefinedArg
      (fun ⟨_, h, _⟩ => UrlArg.noConfusion h),
    (C9_url_validation emptyRoot false "t").2 "https://chat.openai.com/c/abc" (by decide)⟩

/-- Counterexample to C10 as stated: the batch orchestrator's low-confidence
live fallback does NOT route through the content script's
`EXTRACT_CONVERSATION` handler.  The content script emits `PAGE_READY` only
inside that very handler, so `waitForPageLoad` deterministically times out
and the concrete fallback fails with `'Page ready timeout for tab 7'` —
neither the handler's `'URL parameter is required for extraction'` error nor
the post-handshake `'Fallback extraction failed'` error is ever produced. -/
theorem C10_counterexample :
    fallbackTabExtraction emptyRoot "t" 7 =
      Except.error "Page ready timeout for tab 7" ∧
    fallbackTabExtraction emptyRoot "t" 7 ≠
      Except.error "URL parameter is required for extraction" ∧
    fallbackTabExtraction emptyRoot "t" 7 ≠
      Except.error "Fallback extraction failed" := by
  refine ⟨rfl, ?_, ?_⟩
  · decide
  · decide

/-- C10 (amended): every live extraction request that reaches the content
script — the export button's click handler or the `EXTRACT_CONVERSATION`
message handler — calls `extractConversation` with no URL argument, so the
call throws `'URL parameter is required for extraction'` and the handler
crashes before producing any response or conversation data.  The batch
orchestrator's low-confidence live fallback also yields no conversation
data, but it fails before ever reaching that handler: `PAGE_READY` is only
emitted inside the handler itself, so the fallback's `waitForPageLoad`
deterministically rejects with `'Page ready timeout for tab <id>'` and
`EXTRACT_CONVERSATION` is never sent. -/
theorem C10_content_requests_lack_url (root : DomRoot) (now : String) (tabId : Nat) :
    contentExtractConversation root now =
      Except.error "URL parameter is required for extraction" ∧
    contentScriptExtractResponse root now = none ∧
    fallbackTabExtraction root now tabId =
      Except.error ("Page ready timeout for tab " ++ toString tabId) :=
  ⟨rfl, rfl, rfl⟩

/-- Counterexample to C3 as stated: on a live-mode extraction the metadata's
`warnings` field is never assigned (`none`), not the empty sequence `[]`,
even though `confidence = 1.0` does hold. -/
theorem C3_counterexample :
    ∃ c, extractConversation emptyRoot false "t" (UrlArg.str "u") = Except.ok c ∧
      ∃ m, c.metadata = some m ∧ m.confidence = 1 ∧ m.warnings ≠ some ([] : List String) := by
  refine ⟨_, rfl, _, rfl, rfl, by decide⟩

/-- C3 (amended): for every document and every valid URL, live-mode
extraction yields metadata with `extractionMethod = 'live-dom'`,
`confidence = 1.0`, and no `warnings` field at all (rather than an empty
warnings sequence), regardless of document content. -/
theorem C3_live_metadata (root : DomRoot) (now s : String) (hs : s ≠ "") :
    ∃ c, extractConversation root false now (UrlArg.str s) = Except.ok c ∧
      c.metadata = some
        { extractionMethod := "live-dom", confidence := 1,
          warnings := none, isReliable := none } :=
  ⟨_, extractConversation_live root now s hs, rfl⟩

/-- Witness for C3 (amended) at a concrete document and URL. -/
theorem C3_live_metadata_witness :
    ∃ c, extractConversation gapRoot false "t" (UrlArg.str "u") = Except.ok c ∧
      c.metadata = some
        { extractionMethod := "live-dom", confidence := 1,
          warnings := none, isReliable := none } :=
  C3_live_metadata gapRoot "t" "u" (by decide)

/-- C5: when the primary message-turn selector matches zero nodes and the
secondary grouping selector matches `k > 0` nodes, the fallback extraction
path supplies the messages, and every resulting message has role `"unknown"`
and timestamp `null` — roles are never inferred from position. -/
theorem C5_fallback_roles (root : DomRoot) (isStatic : Bool) (now s : String) (hs : s ≠ "")
    (hp : root.primaryTurns = []) (_hg : 0 < root.groups.length) :
    ∃ c, extractConversation root isStatic now (UrlArg.str s) = Except.ok c ∧
      c.messages = extractMessagesAlternative root ∧
      ∀ m ∈ c.messages, m.role = "unknown" ∧ m.timestamp = none := by
  have hmsg : extractedMessages root = extractMessagesAlternative root :=
    extractedMessages_fallback root hp
  have hroles : ∀ m ∈ extractMessagesAlternative root, m.role = "unknown" ∧ m.timestamp = none :=
    role_timestamp_extractMessagesAlternativeFrom 0 root.groups
  cases isStatic with
  | false =>
    refine ⟨_, extractConversation_live root now s hs, ?_, ?_⟩
    · simpa [baseConversation] using hmsg
    · intro m hm
      exact hroles m (by simpa [baseConversation, hmsg] using hm)
  | true =>
    refine ⟨_, extractConversation_static root now s hs, ?_, ?_⟩
    · simpa [baseConversation] using hmsg
    · intro m hm
      exact hroles m (by simpa [baseConversation, hmsg] using hm)

/-- Witness for C5 at a concrete document with one non-empty group. -/
theorem C5_fallback_roles_witness :
    ∃ c, extractConversation altRoot false "t" (UrlArg.str "u") = Except.ok c ∧
      c.messages = extractMessagesAlternative altRoot ∧
      ∀ m ∈ c.messages, m.role = "unknown" ∧ m.timestamp = none :=
  C5_fallback_roles altRoot false "t" "u" (by decide) (by decide) (by decide)

/-- Counterexample to C1 as stated: on the secondary fallback path a
whitespace-only group is skipped but the surviving message keeps the group's
own index, so the messages array of `gapRoot` is `[{index := 1, ...}]` —
its index list `[1]` is not `0..n-1 = [0]`. -/
theorem C1_counterexample :
    (extractConversation gapRoot false "t" (UrlArg.str "u")).toOption.map
        (fun c => c.messages.map Message.index) = some [1] ∧
    ([1] : List Nat) ≠ List.range 1 := by
  constructor
  · decide
  · decide

/-- C1 (amended): the messages array has index fields exactly `0..n-1`
matching array positions on the primary-selector path always, and on the
secondary fallback path whenever every matched group has non-empty trimmed
text (otherwise a message keeps its source group's index, leaving gaps). -/
theorem C1_index_contiguous (root : DomRoot) (isStatic : Bool) (now s : String) (hs : s ≠ "")
    (h : root.primaryTurns ≠ [] ∨ ∀ g ∈ root.groups, jsTrim g.textContent ≠ "") :
    ∃ c, extractConversation root isStatic now (UrlArg.str s) = Except.ok c ∧
      c.messages.map Message.index = List.range c.messages.length := by
  have hmsg : (extractedMessages root).map Message.index =
      List.range (extractedMessages root).length := by
    rcases h with hp | hg
    · rw [extractedMessages_primary root hp, map_index_extractPrimaryFrom,
        length_extractPrimaryFrom, List.range_eq_range']
    · by_cases hp : root.primaryTurns = []
      · rw [extractedMessages_fallback root hp]
        have hlen : (extractMessagesAlternative root).map Message.index =
            List.range' 0 root.groups.length :=
          map_index_extractMessagesAlternativeFrom 0 root.groups hg
        rw [hlen, List.range_eq_range']
        congr 1
        have := congrArg List.length hlen
        simpa using this.symm
      · rw [extractedMessages_primary root hp, map_index_extractPrimaryFrom,
          length_extractPrimaryFrom, List.range_eq_range']
  cases isStatic with
  | false =>
    exact ⟨_, extractConversation_live root now s hs, by simpa [baseConversation] using hmsg⟩
  | true =>
    exact ⟨_, extractConversation_static root now s hs, by simpa [baseConversation] using hmsg⟩

/-- Witness for C1 (amended) at a concrete document whose single fallback
group has non-empty text. -/
theorem C1_index_contiguous_witness :
    ∃ c, extractConversation altRoot false "t" (UrlArg.str "u") = Except.ok c ∧
      c.messages.map Message.index = List.range c.messages.length :=
  C1_index_contiguous altRoot false "t" "u" (by decide) (Or.inr (by decide))

/-- C2: the static-mode completeness score starts at 1.0 and is reduced by
exactly the five independent penalties (−0.3 lazy placeholders, −0.2 low
timestamp ratio with ≥1 message, −0.4 few messages plus a `Load more` marker,
−0.5 skeleton markers, −0.6 no messages despite >100 chars of body text),
each appending one warning, and the final score is clamped into `[0, 1]` even
when the cumulative penalties exceed 1.0. -/
theorem C2_completeness_scoring (root : DomRoot) (conversation : Conversation) :
    (assessCompleteness root conversation).score =
      max 0 (1 - (if penaltyLazy root then (0.3 : ℚ) else 0)
               - (if penaltyTimestamps conversation then (0.2 : ℚ) else 0)
               - (if penaltyTruncated root conversation then (0.4 : ℚ) else 0)
               - (if penaltySkeleton root then (0.5 : ℚ) else 0)
               - (if penaltyNoMessages root conversation then (0.6 : ℚ) else 0)) ∧
    (assessCompleteness root conversation).warnings.length =
      (if penaltyLazy root then 1 else 0) +
      (if penaltyTimestamps conversation then 1 else 0) +
      (if penaltyTruncated root conversation then 1 else 0) +
      (if penaltySkeleton root then 1 else 0) +
      (if penaltyNoMessages root conversation then 1 else 0) ∧
    0 ≤ (assessCompleteness root conversation).score ∧
    (assessCompleteness root conversation).score ≤ 1 := by
  refine ⟨?_, ?_, ?_, ?_⟩
  · simp only [assessCompleteness]
    split_ifs <;> norm_num
  · simp only [assessCompleteness]
    split_ifs <;> simp
  · simp only [assessCompleteness]
    exact le_max_left 0 _
  · simp only [assessCompleteness]
    rw [max_le_iff]
    refine ⟨by norm_num, ?_⟩
    split_ifs <;> norm_num

/-- Counterexample to C4 as stated: a static extraction whose confidence is
`1 ≥ 0.7` carries metadata with no `isReliable` field at all (`none`), though
the claim requires the boolean `confidence >= 0.7` to be included. -/
theorem C4_counterexample :
    ∃ c, extractConversation emptyRoot true "t" (UrlArg.str "u") = Except.ok c ∧
      ∃ m, c.metadata = some m ∧ (0.7 : ℚ) ≤ m.confidence ∧ m.isReliable = none := by
  refine ⟨_, extractConversation_static emptyRoot "t" "u" (by decide), _, rfl, ?_, rfl⟩
  have h1 : ¬ penaltyLazy emptyRoot := by decide
  have h2 : ¬ penaltyTimestamps (baseConversation emptyRoot "t" "u") :=
    fun h => absurd h.1 (by decide)
  have h3 : ¬ penaltyTruncated emptyRoot (baseConversation emptyRoot "t" "u") :=
    fun h => absurd h.2 (by decide)
  have h4 : ¬ penaltySkeleton emptyRoot := by decide
  have h5 : ¬ penaltyNoMessages emptyRoot (baseConversation emptyRoot "t" "u") :=
    fun h => absurd h.2 (by decide)
  have hscore : (assessCompleteness emptyRoot (baseConversation emptyRoot "t" "u")).score = 1 := by
    simp only [assessCompleteness, if_neg h1, if_neg h2, if_neg h3, if_neg h4, if_neg h5]
    rw [max_eq_right (by norm_num : (0 : ℚ) ≤ 1)]
  rw [hscore]
  norm_num

/-- C4 (amended): every record returned by `extractConversation` carries a
metadata object (always present), but the `isReliable` boolean equal to
`confidence >= 0.7` is only computed inside the completeness assessment's
return value — it is never copied into the record's metadata, which leaves
the field unset. -/
theorem C4_metadata_isReliable (root : DomRoot) (isStatic : Bool) (now s : String) (hs : s ≠ "") :
    (∃ c, extractConversation root isStatic now (UrlArg.str s) = Except.ok c ∧
      c.metadata.isSome = true ∧ ∀ m, c.metadata = some m → m.isReliable = none) ∧
    (∀ conversation : Conversation,
      (assessCompleteness root conversation).isReliable =
        decide ((0.7 : ℚ) ≤ (assessCompleteness root conversation).score)) := by
  constructor
  · cases isStatic with
    | false =>
      refine ⟨_, extractConversation_live root now s hs, rfl, ?_⟩
      intro m hm
      cases hm
      rfl
    | true =>
      refine ⟨_, extractConversation_static root now s hs, rfl, ?_⟩
      intro m hm
      cases hm
      rfl
  · intro conversation
    rfl

/-- Witness for C4 (amended) at a concrete document and URL, static mode. -/
theorem C4_metadata_isReliable_witness :
    (∃ c, extractConversation gapRoot true "t" (UrlArg.str "u") = Except.ok c ∧
      c.metadata.isSome = true ∧ ∀ m, c.metadata = some m → m.isReliable = none) ∧
    (∀ conversation : Conversation,
      (assessCompleteness gapRoot conversation).isReliable =
        decide ((0.7 : ℚ) ≤ (assessCompleteness gapRoot conversation).score)) :=
  C4_metadata_isReliable gapRoot true "t" "u" (by decide)

/-! ## Transfer-channel lemmas -/

lemma buildChunks_join_aux {α : Type} :
    ∀ (n : Nat) (l : List α), l.length ≤ n → (buildChunks l).flatten = l := by
  intro n
  induction n with
  | zero =>
    intro l h
    have hl : l = [] := List.length_eq_zero.mp (Nat.le_zero.mp h)
    subst hl
    simp [buildChunks]
  | succ n ih =>
    intro l h
    match l with
    | [] => simp [buildChunks]
    | a :: rest =>
      simp only [buildChunks, List.flatten_cons]
      rw [ih ((a :: rest).drop CHUNK_SIZE)]
      · exact List.take_append_drop CHUNK_SIZE (a :: rest)
      · simp only [List.length_drop, List.length_cons]
        simp only [List.length_cons] at h
        simp [CHUNK_SIZE]
        omega

lemma buildChunks_join {α : Type} (l : List α) : (buildChunks l).flatten = l :=
  buildChunks_join_aux l.length l le_rfl

lemma buildChunks_mem_length_aux {α : Type} :
    ∀ (n : Nat) (l : List α), l.length ≤ n →
      ∀ c ∈ buildChunks l, 0 < c.length ∧ c.length ≤ CHUNK_SIZE := by
  intro n
  induction n with
  | zero =>
    intro l h
    have hl : l = [] := List.length_eq_zero.mp (Nat.le_zero.mp h)
    subst hl
    simp [buildChunks]
  | succ n ih =>
    intro l h c hc
    match l with
    | [] => simp [buildChunks] at hc
    | a :: rest =>
      simp only [buildChunks, List.mem_cons] at hc
      rcases hc with rfl | hc2
      · simp only [List.length_take, List.length_cons]
        simp [CHUNK_SIZE]
      · refine ih ((a :: rest).drop CHUNK_SIZE) ?_ c hc2
        simp only [List.length_drop, List.length_cons]
        simp only [List.length_cons] at h
        simp [CHUNK_SIZE]
        omega

lemma buildChunks_mem_length {α : Type} (l : List α) :
    ∀ c ∈ buildChunks l, 0 < c.length ∧ c.length ≤ CHUNK_SIZE :=
  buildChunks_mem_length_aux l.length l le_rfl

lemma buildChunks_dropLast_length_aux {α : Type} :
    ∀ (n : Nat) (l : List α), l.length ≤ n →
      ∀ c ∈ (buildChunks l).dropLast, c.length = CHUNK_SIZE := by
  intro n
  induction n with
  | zero =>
    intro l h
    have hl : l = [] := List.length_eq_zero.mp (Nat.le_zero.mp h)
    subst hl
    simp [buildChunks]
  | succ n ih =>
    intro l h c hc
    match l with
    | [] => simp [buildChunks] at hc
    | a :: rest =>
      simp only [buildChunks] at hc
      cases hd : (a :: rest).drop CHUNK_SIZE with
      | nil =>
        rw [hd] at hc
        simp [buildChunks] at hc
      | cons x xs =>
        rw [hd] at hc
        simp only [buildChunks, List.dropLast_cons₂, List.mem_cons] at hc
        have hlong : CHUNK_SIZE < (a :: rest).length := by
          by_contra hle
          have : (a :: rest).drop CHUNK_SIZE = [] :=
            List.drop_eq_nil_of_le (Nat.le_of_not_lt hle)
          rw [this] at hd
          exact List.noConfusion hd
        rcases hc with rfl | hc2
        · simp only [List.length_take]
          omega
        · have hrec := ih ((a :: rest).drop CHUNK_SIZE) (by
            simp only [List.length_drop, List.length_cons]
            simp only [List.length_cons] at h
            simp [CHUNK_SIZE]
            omega) c
          rw [hd] at hrec
          refine hrec ?_
          simpa [buildChunks] using hc2

lemma buildChunks_dropLast_length {α : Type} (l : List α) :
    ∀ c ∈ (buildChunks l).dropLast, c.length = CHUNK_SIZE :=
  buildChunks_dropLast_length_aux l.length l le_rfl

lemma buildChunks_small {α : Type} (l : List α) (h0 : l ≠ []) (h1 : l.length ≤ CHUNK_SIZE) :
    buildChunks l = [l] := by
  match l with
  | a :: rest =>
    simp only [buildChunks]
    rw [List.take_of_length_le h1, List.drop_eq_nil_of_le h1]
    simp [buildChunks]

lemma utf8Len_replicate_ascii (n : Nat) : utf8Len (List.replicate n 97) = n := by
  induction n with
  | zero => rfl
  | succ n ih =>
    rw [List.replicate_succ, utf8Len.eq_def]
    simp only []
    norm_num [ih]
    omega

/-! ## Transfer and batch claim theorems -/

/-- Counterexample to C6 as stated: a payload whose byte size is exactly the
5 MiB threshold (`5 * CHUNK_SIZE`) is NOT sent through the chunked protocol —
the code chunks only for sizes strictly above the threshold
(`htmlSize > 5 * CHUNK_SIZE`), so an at-threshold payload goes direct. -/
theorem C6_counterexample :
    utf8Len (List.replicate (5 * CHUNK_SIZE) 97) = 5 * CHUNK_SIZE ∧
    usesChunkedTransfer (List.replicate (5 * CHUNK_SIZE) 97) = false := by
  have h := utf8Len_replicate_ascii (5 * CHUNK_SIZE)
  refine ⟨h, ?_⟩
  simp [usesChunkedTransfer, h]

/-- C6 (amended): a fetched HTML payload is sent as a single direct message
when its byte size is at or below the 5 MiB threshold (5 × the 1 MiB chunk
unit) and through the chunked init/chunk/complete protocol strictly above it;
the chunked path splits the string into slices that reassemble to the
original, every slice before the last is exactly 1 MiB of code units, and
every slice is non-empty and at most 1 MiB. -/
theorem C6_transfer_strategy :
    (∀ html : List Nat, usesChunkedTransfer html = true ↔ 5 * CHUNK_SIZE < utf8Len html) ∧
    (∀ html : List Nat, (buildChunks html).flatten = html) ∧
    (∀ html : List Nat, ∀ c ∈ (buildChunks html).dropLast, c.length = CHUNK_SIZE) ∧
    (∀ html : List Nat, ∀ c ∈ buildChunks html, 0 < c.length ∧ c.length ≤ CHUNK_SIZE) := by
  refine ⟨?_, ?_, ?_, ?_⟩
  · intro html
    simp [usesChunkedTransfer]
  · intro html
    exact buildChunks_join html
  · intro html
    exact buildChunks_dropLast_length html
  · intro html
    exact buildChunks_mem_length html

/-- Witness for C6 (amended) at a concrete three-code-unit payload: it is not
chunked (its size is below the threshold), and its single chunk reassembles
to the payload and respects the chunk-size bounds. -/
theorem C6_transfer_strategy_witness :
    (usesChunkedTransfer [1, 2, 3] = true ↔ 5 * CHUNK_SIZE < utf8Len [1, 2, 3]) ∧
    (buildChunks ([1, 2, 3] : List Nat)).flatten = [1, 2, 3] ∧
    (0 < ([1, 2, 3] : List Nat).length ∧ ([1, 2, 3] : List Nat).length ≤ CHUNK_SIZE) := by
  refine ⟨C6_transfer_strategy.1 [1, 2, 3], C6_transfer_strategy.2.1 [1, 2, 3], ?_⟩
  refine C6_transfer_strategy.2.2.2 [1, 2, 3] [1, 2, 3] ?_
  rw [buildChunks_small ([1, 2, 3] : List Nat) (by decide) (by decide)]
  exact List.mem_singleton_self _

/-! ## Batch-orchestrator lemmas -/

lemma handleBatchExportGo_attempted (env : Nat → ItemWorld) (ids : List Nat) (acc : BatchResult) :
    (handleBatchExportGo env ids acc).attempted = acc.attempted ++ ids := by
  induction ids generalizing acc with
  | nil => simp [handleBatchExportGo]
  | cons id rest ih =>
    cases h : processItem (env id) with
    | ok u => simp [handleBatchExportGo, h, ih]
    | error e => simp [handleBatchExportGo, h, ih]

lemma handleBatchExportGo_counts (env : Nat → ItemWorld) (ids : List Nat) (acc : BatchResult) :
    (handleBatchExportGo env ids acc).successful + (handleBatchExportGo env ids acc).failed =
      acc.successful + acc.failed + ids.length := by
  induction ids generalizing acc with
  | nil => simp [handleBatchExportGo]
  | cons id rest ih =>
    cases h : processItem (env id) with
    | ok u =>
      simp only [handleBatchExportGo, h]
      rw [ih]
      simp
      omega
    | error e =>
      simp only [handleBatchExportGo, h]
      rw [ih]
      simp
      omega

/-- C7: per-item failures never abort the batch — every identifier in the
list is attempted and the success/failure tally always sums to the list
length; in particular, for a 5-item batch whose third item throws during
fetch while the others succeed, items 4 and 5 are still processed and the
final tally is 4 succeeded / 1 failed. -/
theorem C7_batch_isolation :
    (∀ (env : Nat → ItemWorld) (ids : List Nat),
      (handleBatchExport env ids).attempted = ids ∧
      (handleBatchExport env ids).successful + (handleBatchExport env ids).failed =
        ids.length) ∧
    (∀ env : Nat → ItemWorld,
      (∃ e, (env 3).fetchResult = Except.error e) →
      (∀ i, i = 1 ∨ i = 2 ∨ i = 4 ∨ i = 5 → processItem (env i) = Except.ok ()) →
      handleBatchExport env [1, 2, 3, 4, 5] =
        { successful := 4, failed := 1, attempted := [1, 2, 3, 4, 5] }) := by
  constructor
  · intro env ids
    constructor
    · simpa using handleBatchExportGo_attempted env ids
        { successful := 0, failed := 0, attempted := [] }
    · simpa using handleBatchExportGo_counts env ids
        { successful := 0, failed := 0, attempted := [] }
  · rintro env ⟨e, he⟩ hok
    have h3 : processItem (env 3) = Except.error e := by
      simp [processItem, he]
    have h1 : processItem (env 1) = Except.ok () := hok 1 (by tauto)
    have h2 : processItem (env 2) = Except.ok () := hok 2 (by tauto)
    have h4 : processItem (env 4) = Except.ok () := hok 4 (by tauto)
    have h5 : processItem (env 5) = Except.ok () := hok 5 (by tauto)
    simp [handleBatchExport, handleBatchExportGo, h1, h2, h3, h4, h5]

/-- Witness for C7 at the concrete 5-item batch environment in which exactly
item 3's fetch throws. -/
theorem C7_batch_isolation_witness :
    handleBatchExport batchEnv [1, 2, 3, 4, 5] =
      { successful := 4, failed := 1, attempted := [1, 2, 3, 4, 5] } :=
  C7_batch_isolation.2 batchEnv ⟨"Network failure", rfl⟩
    (fun i h => by rcases h with h | h | h | h <;> subst h <;> decide)

/-! ## Worker-lifecycle claim theorems -/

/-- Counterexample to C8 as stated: when provisioning fails because the
`getContexts` query rejects, the shared in-flight handle is NOT cleared — the
rejected promise stays cached, so a subsequent `ensureReady` call receives
the same failed handle instead of retrying fresh. -/
theorem C8_counterexample :
    setupOffscreenDocument envCtxFail none =
      (some (Except.error "ctx fail"), Except.error "ctx fail") ∧
    setupOffscreenDocument envCtxFail (some (Except.error "ctx fail")) =
      (some (Except.error "ctx fail"), Except.error "ctx fail") := by
  constructor
  · decide
  · decide

/-- C8 (amended): when provisioning fails inside the guarded section — the
`createDocument` call or the readiness handshake — the shared in-flight
handle is cleared (reset to `none`) before the failure propagates, so a
subsequent call re-runs provisioning; but a failure of the `getContexts`
query is outside the guard and leaves the rejected handle cached, and any
cached handle is returned as-is to later callers. -/
theorem C8_failure_resets_handle (env : OffscreenEnv)
    (hctx : env.getContextsResult = Except.ok []) :
    (∀ e, env.createResult = Except.error e →
      setupOffscreenDocument env none = (none, Except.error e)) ∧
    (env.createResult = Except.ok () →
      ∀ e, waitForOffscreen env.pings = Except.error e →
        setupOffscreenDocument env none = (none, Except.error e)) ∧
    (∀ p, setupOffscreenDocument env (some p) = (some p, p)) := by
  refine ⟨?_, ?_, ?_⟩
  · intro e he
    simp [setupOffscreenDocument, hctx, he]
  · intro hcr e hw
    simp [setupOffscreenDocument, hctx, hcr, hw]
  · intro p
    rfl

/-- Witness for C8 (amended): with a concrete environment whose
`createDocument` rejects, the handle is cleared; with one whose pings all
fail, the handshake failure also clears it; and a concrete cached handle is
returned unchanged. -/
theorem C8_failure_resets_handle_witness :
    setupOffscreenDocument envCreateFail none = (none, Except.error "boom") ∧
    setupOffscreenDocument envPingFail none =
      (none, Except.error "Offscreen document failed to load") ∧
    setupOffscreenDocument envCreateFail (some (Except.ok ())) =
      (some (Except.ok ()), Except.ok ()) :=
  ⟨(C8_failure_resets_handle envCreateFail rfl).1 "boom" rfl,
    (C8_failure_resets_handle envPingFail rfl).2.1 rfl
      "Offscreen document failed to load" (by decide),
    (C8_failure_resets_handle envCreateFail rfl).2.2 (Except.ok ())⟩

end ChatGPTArchiver
